import Mathlib

/-!
Verification development for the web-fetcher mirroring pipeline.

Shallow embedding conventions:
- URL paths are represented as their slash-separated segment lists: the Go
  string `s` corresponds to `s.splitOn "/"`.  So `"/a/b"` is `["", "a", "b"]`,
  the empty path `""` is `[""]`, and an absolute path is one whose list starts
  with `""` and has at least two segments.
- Machine time is a `Nat` parameter threaded explicitly (`time.Now()` becomes
  the `now` argument).
- External capabilities (net/url parsing via `url.Parse`, purell
  normalization, the network, the filesystem) are passed in as explicit
  function/value parameters; `net/url.ResolveReference` and `resolvePath`
  are modelled concretely following RFC 3986 §5.2, which is what the Go
  standard library implements (the unused `Opaque`, `User` and `ForceQuery`
  parts are not modelled, since the fetcher never produces them).
- Stateful pipeline code (`Fetcher.scrape` / `Fetcher.process`) becomes a pure
  function that returns its result together with an ordered log of effects
  (store creation, parser invocation, file writes, asset requests).
-/

/-- ASCII lower-casing of one character. -/
def asciiLower (c : Char) : Char :=
  if 'A' ≤ c ∧ c ≤ 'Z' then Char.ofNat (c.toNat + 32) else c

/-- ASCII lower-casing of a string, modelling Go `strings.ToLower` on the
ASCII inputs the fetcher compares (hosts and content types). -/
def strLower (s : String) : String := String.mk (s.data.map asciiLower)

/-- Case-insensitive string equality, modelling Go `strings.EqualFold`
(ASCII folding; the hosts compared by the fetcher are ASCII domain
names). -/
def eqFold (a b : String) : Bool := strLower a == strLower b

/-- A parsed URL, modelling the fields of Go `net/url.URL` that the fetcher
reads or writes.  `path` is the slash-separated segment list of the Go
`Path` string. -/
structure GoURL where
  scheme : String
  host : String
  path : List String
  rawQuery : String
  fragment : String
deriving DecidableEq, Repr

/-- Decode a segment-list path back to the Go path string. -/
def pathStr (p : List String) : String := String.intercalate "/" p

/-- Whether a segment-list path denotes a Go path string starting with `/`
(head segment empty and at least one separator). -/
def isAbsPath (p : List String) : Bool :=
  match p with
  | "" :: _ :: _ => true
  | _ => false

/-- Dot-segment removal loop of Go `net/url.resolvePath` (RFC 3986 §5.2.4),
processing the remaining segments against a reversed output stack `acc`:
`.` is dropped, `..` pops one output segment, and a trailing `.` or `..`
leaves a trailing empty segment (a trailing slash in string terms). -/
def removeDotSegsCore (acc : List String) : List String → List String
  | [] => acc.reverse
  | s :: rest =>
    if s = "." then
      (if rest = [] then acc.reverse ++ [""] else removeDotSegsCore acc rest)
    else if s = ".." then
      (if rest = [] then (acc.drop 1).reverse ++ [""]
       else removeDotSegsCore (acc.drop 1) rest)
    else removeDotSegsCore (s :: acc) rest

/-- Merge step of Go `net/url.resolvePath`: a relative reference is appended
to the base path with its last segment removed (`base[:lastIndex(base,"/")+1]
+ ref`); a base with no slash at all contributes nothing. -/
def mergeSegs (base ref : List String) : List String :=
  match base with
  | _ :: _ :: _ => base.dropLast ++ ref
  | _ => ref

/-- Model of Go `net/url.resolvePath` (RFC 3986 §5.2 merge followed by
dot-segment removal).  A nonempty result is always absolute. -/
def resolvePath (base ref : List String) : List String :=
  let full := if ref = [""] then base
              else if isAbsPath ref then ref
              else mergeSegs base ref
  if full = [""] then [""]
  else "" :: removeDotSegsCore [] (if isAbsPath full then full.drop 1 else full)

/-- Model of Go `net/url.URL.ResolveReference` restricted to the fields the
fetcher uses (scheme, host, path, query, fragment; `Opaque`, `User` and
`ForceQuery` are never produced by the fetcher and are omitted). -/
def resolveReference (u ref : GoURL) : GoURL :=
  if ref.scheme ≠ "" ∨ ref.host ≠ "" then
    { scheme := if ref.scheme ≠ "" then ref.scheme else u.scheme
      host := ref.host
      path := resolvePath ref.path [""]
      rawQuery := ref.rawQuery
      fragment := ref.fragment }
  else
    { scheme := u.scheme
      host := u.host
      path := resolvePath u.path ref.path
      rawQuery := if ref.path = [""] ∧ ref.rawQuery = "" then u.rawQuery
                  else ref.rawQuery
      fragment := if ref.path = [""] ∧ ref.rawQuery = "" ∧ ref.fragment = ""
                  then u.fragment else ref.fragment }

/-- Element kinds matched by the parser selector
`img[src], link[rel=stylesheet], script[src]`. -/
inductive ElemKind
  | img
  | script
  | link
deriving DecidableEq, Repr

/-- An asset-bearing element of the parsed document: its kind and its
attribute list (the document-model adapter view used by `ReplaceAssets`). -/
structure AssetElem where
  kind : ElemKind
  attrs : List (String × String)
deriving DecidableEq, Repr

/-- Attribute lookup, modelling goquery `Selection.Attr` on one element. -/
def getAttr (e : AssetElem) (key : String) : Option String :=
  (e.attrs.find? (fun kv => kv.1 == key)).map (fun kv => kv.2)

/-- Attribute update, modelling goquery `Selection.SetAttr` on one element
(replaces an existing attribute, otherwise appends it). -/
def setAttr (e : AssetElem) (key v : String) : AssetElem :=
  { e with attrs :=
      if (e.attrs.find? (fun kv => kv.1 == key)).isSome then
        e.attrs.map (fun kv => if kv.1 == key then (kv.1, v) else kv)
      else e.attrs ++ [(key, v)] }

/-- The parsed HTML document as the fetcher observes it through the
document-model adapter: the `href` of the first `base` element (if any, as
returned by `Find("base").Attr("href")`), the elements matching the asset
selector in document order, and the anchor and image counts. -/
structure Doc where
  baseHref : Option String
  assetElems : List AssetElem
  numLinks : Nat
  numImages : Nat

/-- The literal `&url.URL{Path: "."}` used as the fallback reference in
`determineBaseURL`. -/
def dotURL : GoURL :=
  { scheme := "", host := "", path := ["."], rawQuery := "", fragment := "" }

/-- Embedding of `fetcher.determineBaseURL` (src/fetcher/url.go): if the
document's first `base` element has a parseable `href`, resolve it against
the page URL; otherwise resolve the reference `.` against the page URL.
`parseURL` stands for the external `url.Parse`. -/
def determineBaseURL (parseURL : String → Option GoURL) (urlObj : GoURL)
    (doc : Doc) : GoURL :=
  match doc.baseHref with
  | some baseUrl =>
    match parseURL baseUrl with
    | some tmpUrlObj => resolveReference urlObj tmpUrlObj
    | none => resolveReference urlObj dotURL
  | none => resolveReference urlObj dotURL

/-- Embedding of `fetcher.constructURLBaseName` (src/fetcher/url.go):
`Host + Path`, with `"+" + RawQuery` appended when the query is nonempty. -/
def constructURLBaseName (docURL : GoURL) : String :=
  let docName := docURL.host ++ pathStr docURL.path
  if 0 < docURL.rawQuery.length then docName ++ "+" ++ docURL.rawQuery
  else docName

/-- Embedding of `types.Metadata`: link/image counts, the current fetch time
and the optional previous fetch time. -/
structure Metadata where
  numLinks : Nat
  numImages : Nat
  lastFetchedAt : Option Nat
  fetchedAt : Nat
deriving DecidableEq, Repr

/-- Embedding of `Parser.ExtractMetadata` (src/parser/parser.go): counts of
anchor and image elements; the timestamp fields keep their zero values. -/
def extractMetadata (doc : Doc) : Metadata :=
  { numLinks := doc.numLinks, numImages := doc.numImages,
    lastFetchedAt := none, fetchedAt := 0 }

/-- Embedding of the merge step of `Fetcher.processMetadata`
(src/fetcher/url.go): extract fresh metadata, set `FetchedAt` to the current
time, and when prior metadata exists copy its `FetchedAt` into
`LastFetchedAt`. -/
def mergeMetadata (now : Nat) (doc : Doc) (oldMetadata : Option Metadata) :
    Metadata :=
  let metadata := { extractMetadata doc with fetchedAt := now }
  match oldMetadata with
  | some old => { metadata with lastFetchedAt := some old.fetchedAt }
  | none => metadata

/-- Embedding of `types.EmbeddedAsset` at rewrite time: the absolute resolved
URL (the data stream is attached only during the later download phase). -/
structure EmbeddedAsset where
  absURL : GoURL
deriving DecidableEq, Repr

/-- Attribute holding the URL for each element kind, as selected by the
`switch` in `Parser.ReplaceAssets` (src/parser/parser.go). -/
def urlAttrKey : ElemKind → String
  | ElemKind.img => "src"
  | ElemKind.script => "src"
  | ElemKind.link => "href"

/-- Local file reference written into the rewritten attribute.  This stands
for `url.URL{Scheme: "file", Path: fs.AssetFilePath(as)}.String()`; the store
path sanitization details are irrelevant to the claims and are abstracted to
a deterministic function of the document name and the asset URL. -/
def localAssetRef (docName : String) (abs : GoURL) : String :=
  "file://" ++ docName ++ pathStr abs.path

/-- Embedding of the URL-transformer closure built inside `Fetcher.process`
(src/fetcher/url.go, mirror branch): parse the raw asset URL (unparseable
URLs are rejected), resolve it against the base URL, keep it only when the
resolved host equals the final response host case-insensitively, and in that
case append an `EmbeddedAsset` to the captured slice and return the local
file reference.  The captured slice is threaded explicitly as `assets`. -/
def processTransformer (parseURL : String → Option GoURL)
    (baseURL finalURL : GoURL) (docName : String)
    (assets : List EmbeddedAsset) (assetURL : String) :
    String × Bool × List EmbeddedAsset :=
  match parseURL assetURL with
  | none => ("", false, assets)
  | some assetUrlObj =>
    let assetAbsUrlObj := resolveReference baseURL assetUrlObj
    if eqFold assetAbsUrlObj.host finalURL.host then
      (localAssetRef docName assetAbsUrlObj, true,
       assets ++ [{ absURL := assetAbsUrlObj }])
    else ("", false, assets)

/-- Embedding of `Parser.ReplaceAssets` (src/parser/parser.go): walk the
selected elements in document order; skip an element whose URL attribute is
absent or empty; otherwise run the transformer (threading its captured asset
slice) and overwrite the attribute when the transformer says so. -/
def replaceAssets
    (transformer : List EmbeddedAsset → String → String × Bool × List EmbeddedAsset) :
    List AssetElem → List EmbeddedAsset → List AssetElem × List EmbeddedAsset
  | [], assets => ([], assets)
  | e :: rest, assets =>
    let key := urlAttrKey e.kind
    match getAttr e key with
    | none =>
      let r := replaceAssets transformer rest assets
      (e :: r.1, r.2)
    | some assetURL =>
      if assetURL.length = 0 then
        let r := replaceAssets transformer rest assets
        (e :: r.1, r.2)
      else
        let t := transformer assets assetURL
        let e' := if t.2.1 then setAttr e key t.1 else e
        let r := replaceAssets transformer rest t.2.2
        (e' :: r.1, r.2)

/-- The mirror-rewriting phase of `Fetcher.process` (src/fetcher/url.go):
determine the base URL, then rewrite the document's asset elements with the
transformer closure, starting from an empty asset slice.  Returns the
rewritten elements and the collected download list. -/
def mirrorPhase (parseURL : String → Option GoURL) (finalURL : GoURL)
    (doc : Doc) (docName : String) : List AssetElem × List EmbeddedAsset :=
  let baseUrlObj := determineBaseURL parseURL finalURL doc
  replaceAssets (processTransformer parseURL baseUrlObj finalURL docName)
    doc.assetElems []

/-- Classification of one element by the transformer: whether its (nonempty)
URL attribute parses and resolves to the same origin as the final response
URL, in which case it is added to the download list with this absolute URL
and its attribute is rewritten. -/
def elemAsset (parseURL : String → Option GoURL) (baseURL finalURL : GoURL)
    (e : AssetElem) : Option EmbeddedAsset :=
  match getAttr e (urlAttrKey e.kind) with
  | none => none
  | some v =>
    if v.length = 0 then none
    else
      match parseURL v with
      | none => none
      | some u =>
        let abs := resolveReference baseURL u
        if eqFold abs.host finalURL.host then some { absURL := abs } else none

/-- The per-element rewrite performed by `ReplaceAssets` under the
transformer closure: same-origin elements get their URL attribute replaced
by the local file reference, all others are untouched. -/
def rewriteElem (parseURL : String → Option GoURL) (baseURL finalURL : GoURL)
    (docName : String) (e : AssetElem) : AssetElem :=
  match elemAsset parseURL baseURL finalURL e with
  | none => e
  | some a => setAttr e (urlAttrKey e.kind) (localAssetRef docName a.absURL)

/-- Gate events of one `ThrottleClient.Do` call: taking a slot from the
buffered channel, issuing the HTTP request, and releasing the slot. -/
inductive GateEvent
  | acquire
  | issue
  | release
deriving DecidableEq, Repr

/-- Outcome of one `ThrottleClient.Do` call: the context's cancellation
error, a completed HTTP attempt (success or transport failure), or blocking
until a slot frees or the context is cancelled. -/
inductive DoOutcome (ε ρ : Type)
  | ctxError
  | completed (r : Except ε ρ)
  | blocked

/-- Embedding of `ThrottleClient` (throttled transport): only the
concurrency limit matters to the gate logic. -/
structure ThrottleClient where
  parallelism : Nat
deriving DecidableEq, Repr

/-- Embedding of `ThrottleClient.Do`.  `inUse` is the channel-buffer
occupancy at the call, `ctxCancelled` whether `ctx.Done()` is ready at the
`select`, and `pickDone` models the pseudo-random choice Go makes when both
`select` cases are ready.  When `Parallelism = 0` the gate (and the context)
is bypassed entirely and the request is issued directly.  An acquired slot
is released by `defer`, so a completed call leaves occupancy unchanged. -/
def throttleDo {ε ρ : Type} (c : ThrottleClient) (inUse : Nat)
    (ctxCancelled : Bool) (pickDone : Bool) (reqResult : Except ε ρ) :
    DoOutcome ε ρ × List GateEvent :=
  if 0 < c.parallelism then
    let slotFree : Bool := decide (inUse < c.parallelism)
    if ctxCancelled && (!slotFree || pickDone) then (DoOutcome.ctxError, [])
    else if slotFree then
      (DoOutcome.completed reqResult,
       [GateEvent.acquire, GateEvent.issue, GateEvent.release])
    else (DoOutcome.blocked, [])
  else (DoOutcome.completed reqResult, [GateEvent.issue])

/-- Effects of one run of the scrape pipeline, in order: file-store
creation, invocation of the HTML parser on the body, and the store writes
and asset requests. -/
inductive FetchEffect
  | newFileStore (docName : String)
  | invokeParser
  | saveMetadata (m : Metadata)
  | httpGet (u : GoURL)
  | saveAsset (a : EmbeddedAsset)
  | saveDoc
deriving DecidableEq, Repr

/-- Failure causes of the scrape pipeline (src/fetcher/url.go). -/
inductive FetchErr
  | invalidURL
  | transportErr
  | badStatus (code : Nat)
  | unsupportedContentType (ct : String)
  | parseErr
  | loadMetadataErr
  | assetDownloadErr
deriving DecidableEq, Repr

/-- The HTTP response as the fetcher observes it: status code, the
`Content-Type` header, the final (post-redirect) request URL
(`resp.Request.URL`), and the outcome of parsing the body. -/
structure HTTPResponse where
  statusCode : Nat
  contentType : String
  requestURL : GoURL
  body : Except Unit Doc

/-- The external world of one scrape: `url.Parse`, the throttled client's
answer for the page request, the prior metadata on disk, per-asset download
success, the clock, and the `Mirror` configuration flag. -/
structure ScrapeEnv where
  parseURL : String → Option GoURL
  response : Except Unit HTTPResponse
  loadMetadata : Except Unit (Option Metadata)
  assetFetchOk : GoURL → Bool
  now : Nat
  mirror : Bool

/-- Whether a `Content-Type` header passes the fetcher's check
`strings.Contains(strings.ToLower(contentType), "html")`. -/
def contentTypeIsHTML (ct : String) : Bool :=
  decide (List.IsInfix "html".toList (strLower ct).toList)

/-- Embedding of `Fetcher.processAssets` (src/fetcher/url.go): sequentially
request each collected asset through the throttled client and save it,
aborting on the first failed download. -/
def processAssets (assetFetchOk : GoURL → Bool) :
    List EmbeddedAsset → Option FetchErr × List FetchEffect
  | [] => (none, [])
  | as :: rest =>
    if assetFetchOk as.absURL then
      let r := processAssets assetFetchOk rest
      (r.1, FetchEffect.httpGet as.absURL :: FetchEffect.saveAsset as :: r.2)
    else (some FetchErr.assetDownloadErr, [FetchEffect.httpGet as.absURL])

/-- Embedding of `Fetcher.process` (src/fetcher/url.go, mirror-capable
variant): check the content type, parse the body, load-merge-save metadata,
run the mirror phase and asset downloads when enabled, then save the HTML
document.  Returns the metadata, the failure cause if any, and the ordered
effect log. -/
def processResp (env : ScrapeEnv) (resp : HTTPResponse) (docName : String) :
    Option Metadata × Option FetchErr × List FetchEffect :=
  if !contentTypeIsHTML resp.contentType then
    (none, some (FetchErr.unsupportedContentType resp.contentType), [])
  else
    match resp.body with
    | Except.error _ => (none, some FetchErr.parseErr, [FetchEffect.invokeParser])
    | Except.ok doc =>
      match env.loadMetadata with
      | Except.error _ =>
        (none, some FetchErr.loadMetadataErr, [FetchEffect.invokeParser])
      | Except.ok oldMetadata =>
        let metadata := mergeMetadata env.now doc oldMetadata
        if env.mirror then
          let m := mirrorPhase env.parseURL resp.requestURL doc docName
          let a := processAssets env.assetFetchOk m.2
          match a.1 with
          | some e =>
            (none, some e,
             FetchEffect.invokeParser :: FetchEffect.saveMetadata metadata :: a.2)
          | none =>
            (some metadata, none,
             FetchEffect.invokeParser :: FetchEffect.saveMetadata metadata ::
               (a.2 ++ [FetchEffect.saveDoc]))
        else
          (some metadata, none,
           [FetchEffect.invokeParser, FetchEffect.saveMetadata metadata,
            FetchEffect.saveDoc])

/-- Embedding of `Fetcher.scrape` (src/fetcher/url.go): parse the input URL,
perform the request, reject status codes outside 200-299 before the file
store is created, then create the store keyed by the name derived from the
final response URL and process the response. -/
def scrape (env : ScrapeEnv) (strURL : String) :
    Option Metadata × Option FetchErr × List FetchEffect :=
  match env.parseURL strURL with
  | none => (none, some FetchErr.invalidURL, [])
  | some _ =>
    match env.response with
    | Except.error _ => (none, some FetchErr.transportErr, [])
    | Except.ok resp =>
      if resp.statusCode < 200 ∨ resp.statusCode > 299 then
        (none, some (FetchErr.badStatus resp.statusCode), [])
      else
        let urlBaseName := constructURLBaseName resp.requestURL
        let p := processResp env resp urlBaseName
        (p.1, p.2.1, FetchEffect.newFileStore urlBaseName :: p.2.2)

/-- State of one `Fetcher`: the log of pipeline executions (`scrape` calls)
made so far.  The fetcher keeps no record of previously submitted URLs. -/
structure FetcherState where
  scrapeRuns : List String
deriving DecidableEq, Repr

/-- Embedding of `Fetcher.Fetch` (src/fetcher/url.go): `wg.Add(1)` and run
`scrape` on the given URL, synchronously or asynchronously; there is no
check against previously submitted URLs, so every call executes the
pipeline. -/
def fetchSubmit (f : FetcherState) (url : String) : FetcherState :=
  { scrapeRuns := f.scrapeRuns ++ [url] }

/-- The URL-set accumulation loop of `cmd.run` (src/unnamed/part_006): each
normalized argument is inserted into the set unless already present. -/
def buildURLSet (urlSet : List String) : List String → List String
  | [] => urlSet
  | a :: rest =>
    if a ∈ urlSet then buildURLSet urlSet rest
    else buildURLSet (urlSet ++ [a]) rest

/-- Embedding of `cmd.run` (src/unnamed/part_006): normalize every URL
argument (`purell.NormalizeURLString`, modelled by the `normalize`
parameter), deduplicate the normalized URLs through a set, and return the
list of URLs passed to `Fetcher.Fetch` (one call per set member; Go map
iteration order is unspecified and immaterial to the deduplication
property, the model keeps first-insertion order). -/
def cmdRun (normalize : String → String) (args : List String) : List String :=
  buildURLSet [] (args.map normalize)

/-! Shared concrete fixtures used by witnesses and counterexamples. -/

/-- Concrete instantiation of the external `url.Parse` capability for
witnesses: it parses the handful of strings the fixtures use. -/
def testParse : String → Option GoURL := fun s =>
  if s = "logo.png" then
    some { scheme := "", host := "", path := ["logo.png"], rawQuery := "",
           fragment := "" }
  else if s = "http://cdn.b.com/z.css" then
    some { scheme := "http", host := "cdn.b.com", path := ["", "z.css"],
           rawQuery := "", fragment := "" }
  else none

/-- Concrete final (post-redirect) page URL `http://a.com/`. -/
def testPage : GoURL :=
  { scheme := "http", host := "a.com", path := ["", ""], rawQuery := "",
    fragment := "" }

/-- Concrete document: two image elements referencing the identical
same-origin URL, and one stylesheet link on a foreign host. -/
def testDoc : Doc :=
  { baseHref := none
    assetElems :=
      [{ kind := ElemKind.img, attrs := [("src", "logo.png")] },
       { kind := ElemKind.img, attrs := [("src", "logo.png")] },
       { kind := ElemKind.link, attrs := [("href", "http://cdn.b.com/z.css")] }]
    numLinks := 0
    numImages := 2 }

/-! Helper lemmas. -/

/-- Characterization of `ReplaceAssets` under the mirror transformer: the
elements are rewritten pointwise and the captured asset slice grows by
exactly the same-origin classification of each element, in document
order. -/
theorem replaceAssets_processTransformer (p : String → Option GoURL)
    (b f : GoURL) (d : String) :
    ∀ (elems : List AssetElem) (assets : List EmbeddedAsset),
    replaceAssets (processTransformer p b f d) elems assets =
      (elems.map (rewriteElem p b f d),
       assets ++ elems.filterMap (elemAsset p b f)) := by
  intro elems
  induction elems with
  | nil => intro assets; simp [replaceAssets]
  | cons e rest ih =>
    intro assets
    simp only [replaceAssets, List.map_cons, List.filterMap_cons]
    cases hA : getAttr e (urlAttrKey e.kind) with
    | none =>
      simp [hA, ih, rewriteElem, elemAsset]
    | some v =>
      by_cases hv : v.length = 0
      · simp [hA, hv, ih, rewriteElem, elemAsset]
      · cases hp : p v with
        | none =>
          simp [hA, hv, hp, ih, rewriteElem, elemAsset, processTransformer]
        | some u =>
          by_cases he : eqFold (resolveReference b u).host f.host = true
          · simp [hA, hv, hp, he, ih, rewriteElem, elemAsset,
                  processTransformer]
          · simp [hA, hv, hp, he, ih, rewriteElem, elemAsset,
                  processTransformer]

/-- An element classified into the download list is same-origin: its
absolute URL's host equals the final host case-insensitively. -/
theorem elemAsset_host (p : String → Option GoURL) (b f : GoURL)
    (e : AssetElem) (a : EmbeddedAsset) (h : elemAsset p b f e = some a) :
    eqFold a.absURL.host f.host = true := by
  unfold elemAsset at h
  split at h
  · exact absurd h (by simp)
  · split at h
    · exact absurd h (by simp)
    · split at h
      · exact absurd h (by simp)
      · rename_i u hu
        simp only at h
        split at h
        · rename_i he
          injection h with h
          rw [← h]
          exact he
        · exact absurd h (by simp)

/-- Length of a `filterMap` as a count of the elements mapped to `some`. -/
theorem length_filterMap_isSome {α β : Type} (g : α → Option β)
    (l : List α) :
    (l.filterMap g).length = l.countP (fun x => (g x).isSome) := by
  induction l with
  | nil => simp
  | cons x xs ih =>
    cases hg : g x <;>
      simp [List.filterMap_cons, hg, List.countP_cons, ih]

/-! Claim C1. -/

/-- C1 counterexample: with two image elements referencing the identical
same-origin URL `logo.png`, the download list collected by the rewrite
callback contains two entries with the same absolute resolved URL — the
rewrite callback performs no deduplication, refuting the claim that the list
contains no two assets with the same absolute URL. -/
theorem mirror_assets_duplicate_counterexample :
    ((mirrorPhase testParse testPage testDoc "a.com").2.map
        EmbeddedAsset.absURL) =
      [{ scheme := "http", host := "a.com", path := ["", "logo.png"],
         rawQuery := "", fragment := "" },
       { scheme := "http", host := "a.com", path := ["", "logo.png"],
         rawQuery := "", fragment := "" }] ∧
    ¬ ((mirrorPhase testParse testPage testDoc "a.com").2.map
        EmbeddedAsset.absURL).Nodup := by
  constructor
  · rfl
  · decide

/-- C1 amended: during mirror rewriting of one page, each same-origin valid
asset reference yields exactly one entry in the download list per
referencing element (in document order) — so two different elements with the
identical URL yield two entries, with no deduplication by absolute URL. -/
theorem mirror_assets_one_entry_per_reference (p : String → Option GoURL)
    (f : GoURL) (doc : Doc) (d : String) :
    (mirrorPhase p f doc d).2 =
      doc.assetElems.filterMap
        (elemAsset p (determineBaseURL p f doc) f) ∧
    (mirrorPhase p f doc d).2.length =
      doc.assetElems.countP
        (fun e => (elemAsset p (determineBaseURL p f doc) f e).isSome) := by
  have h := replaceAssets_processTransformer p (determineBaseURL p f doc) f d
    doc.assetElems []
  constructor
  · simpa [mirrorPhase] using congrArg Prod.snd h
  · rw [show (mirrorPhase p f doc d).2 =
        doc.assetElems.filterMap (elemAsset p (determineBaseURL p f doc) f)
      from by simpa [mirrorPhase] using congrArg Prod.snd h]
    exact length_filterMap_isSome _ _

/-! Claim C2. -/

/-- C2 counterexample: calling `Fetcher.Fetch` twice with the same URL is not
a no-op — the second call executes the scrape pipeline again, so the run log
after two identical submissions differs from the log after one. -/
theorem fetch_no_dedup_counterexample :
    (fetchSubmit (fetchSubmit { scrapeRuns := [] } "http://a.com")
        "http://a.com").scrapeRuns ≠
      (fetchSubmit { scrapeRuns := [] } "http://a.com").scrapeRuns := by
  decide

/-- Invariant of the `cmd.run` URL-set loop: starting from a duplicate-free
set, the result stays duplicate-free and contains exactly the members of the
initial set and of the processed arguments. -/
theorem buildURLSet_spec (l : List String) :
    ∀ acc : List String, acc.Nodup →
      (buildURLSet acc l).Nodup ∧
      ∀ u, u ∈ buildURLSet acc l ↔ u ∈ acc ∨ u ∈ l := by
  induction l with
  | nil =>
    intro acc h
    exact ⟨h, fun u => by simp [buildURLSet]⟩
  | cons a rest ih =>
    intro acc h
    by_cases ha : a ∈ acc
    · have hr := ih acc h
      refine ⟨by simpa [buildURLSet, ha] using hr.1, fun u => ?_⟩
      have hm := hr.2 u
      simp only [buildURLSet, ha, if_true]
      constructor
      · intro hb
        rcases hm.1 hb with hc | hc
        · exact Or.inl hc
        · exact Or.inr (List.mem_cons_of_mem _ hc)
      · intro hc
        rcases hc with hc | hc
        · exact hm.2 (Or.inl hc)
        · rcases List.mem_cons.1 hc with rfl | hc
          · exact hm.2 (Or.inl ha)
          · exact hm.2 (Or.inr hc)
    · have h' : (acc ++ [a]).Nodup := by
        simp [List.nodup_append, h, ha]
      have hr := ih (acc ++ [a]) h'
      refine ⟨by simpa [buildURLSet, ha] using hr.1, fun u => ?_⟩
      have hm := hr.2 u
      simp only [buildURLSet, ha, if_false]
      constructor
      · intro hb
        rcases hm.1 hb with hc | hc
        · rcases List.mem_append.1 hc with hc | hc
          · exact Or.inl hc
          · have hua : u = a := by simpa using hc
            exact Or.inr (by simp [hua])
        · exact Or.inr (List.mem_cons_of_mem _ hc)
      · intro hc
        rcases hc with hc | hc
        · exact hm.2 (Or.inl (List.mem_append.2 (Or.inl hc)))
        · rcases List.mem_cons.1 hc with rfl | hc
          · exact hm.2 (Or.inl (List.mem_append.2 (Or.inr (by simp))))
          · exact hm.2 (Or.inr hc)

/-- C2 amended: deduplication of submissions happens in the CLI layer, not
in `Fetcher.Fetch` — `cmd.run` normalizes the URL arguments and submits each
distinct normalized URL to `Fetcher.Fetch` exactly once (the submission list
is duplicate-free and contains exactly the normalized arguments), while
`Fetcher.Fetch` itself executes the pipeline on every call. -/
theorem cmdRun_dedups_normalized (normalize : String → String)
    (args : List String) :
    (cmdRun normalize args).Nodup ∧
    ∀ u, u ∈ cmdRun normalize args ↔ u ∈ args.map normalize := by
  have h := buildURLSet_spec (args.map normalize) [] (by simp)
  exact ⟨h.1, fun u => by simpa using h.2 u⟩

/-! Claim C3. -/

/-- C3: for every raw asset URL processed during mirror rewriting, every
asset entering the download list is same-origin (its resolved host equals
the final response host case-insensitively); and element-wise, an
unparseable URL leaves the element unchanged and excluded, a parseable URL
resolving to a foreign host leaves the element unchanged, and a parseable
URL resolving to the same origin puts its resolved absolute URL into the
download list. -/
theorem mirror_same_origin_classification (p : String → Option GoURL)
    (f : GoURL) (doc : Doc) (d : String) :
    (∀ a ∈ (mirrorPhase p f doc d).2,
      eqFold a.absURL.host f.host = true) ∧
    List.Forall₂ (fun e e' =>
      (∀ v, getAttr e (urlAttrKey e.kind) = some v → v.length ≠ 0 →
        p v = none → e' = e) ∧
      (∀ v u, getAttr e (urlAttrKey e.kind) = some v → v.length ≠ 0 →
        p v = some u →
        eqFold (resolveReference (determineBaseURL p f doc) u).host f.host
          = false → e' = e) ∧
      (∀ v u, getAttr e (urlAttrKey e.kind) = some v → v.length ≠ 0 →
        p v = some u →
        eqFold (resolveReference (determineBaseURL p f doc) u).host f.host
          = true →
        ({ absURL := resolveReference (determineBaseURL p f doc) u } :
            EmbeddedAsset) ∈ (mirrorPhase p f doc d).2))
      doc.assetElems (mirrorPhase p f doc d).1 := by
  have hchar := replaceAssets_processTransformer p
    (determineBaseURL p f doc) f d doc.assetElems []
  have h2 : (mirrorPhase p f doc d).2 =
      doc.assetElems.filterMap (elemAsset p (determineBaseURL p f doc) f) := by
    simpa [mirrorPhase] using congrArg Prod.snd hchar
  have h1 : (mirrorPhase p f doc d).1 =
      doc.assetElems.map (rewriteElem p (determineBaseURL p f doc) f d) := by
    simpa [mirrorPhase] using congrArg Prod.fst hchar
  constructor
  · intro a ha
    rw [h2] at ha
    rcases List.mem_filterMap.1 ha with ⟨e, _, he⟩
    exact elemAsset_host p (determineBaseURL p f doc) f e a he
  · rw [h1, List.forall₂_map_right_iff]
    refine List.forall₂_same.2 (fun e he => ?_)
    refine ⟨fun v hA hv hp => ?_, fun v u hA hv hp hfo => ?_,
           fun v u hA hv hp hso => ?_⟩
    · simp [rewriteElem, elemAsset, hA, hv, hp]
    · simp [rewriteElem, elemAsset, hA, hv, hp, hfo]
    · rw [h2]
      refine List.mem_filterMap.2 ⟨e, he, ?_⟩
      simp [elemAsset, hA, hv, hp, hso]

/-- C3 witness: in the concrete fixture, the collected asset is indeed
same-origin with the final page host. -/
theorem mirror_same_origin_classification_witness :
    eqFold ({ absURL := { scheme := "http", host := "a.com",
                          path := ["", "logo.png"], rawQuery := "",
                          fragment := "" } } :
        EmbeddedAsset).absURL.host testPage.host = true :=
  (mirror_same_origin_classification testParse testPage testDoc "a.com").1 _
    (by decide)

/-! Claim C4. -/

/-- C4: the merged metadata's `fetchedAt` is the current time; when prior
metadata exists, `lastFetchedAt` equals the prior `fetchedAt`; when no prior
metadata exists, `lastFetchedAt` stays absent; and whenever the prior fetch
happened strictly before the current time, a present `lastFetchedAt` is
strictly earlier than `fetchedAt`. -/
theorem mergeMetadata_spec (now : Nat) (doc : Doc)
    (oldMetadata : Option Metadata) :
    (mergeMetadata now doc oldMetadata).fetchedAt = now ∧
    (∀ old, oldMetadata = some old →
      (mergeMetadata now doc oldMetadata).lastFetchedAt
        = some old.fetchedAt) ∧
    (oldMetadata = none →
      (mergeMetadata now doc oldMetadata).lastFetchedAt = none) ∧
    (∀ old, oldMetadata = some old → old.fetchedAt < now →
      ∀ t, (mergeMetadata now doc oldMetadata).lastFetchedAt = some t →
        t < now) := by
  refine ⟨?_, ?_, ?_, ?_⟩
  · cases oldMetadata <;> rfl
  · intro old h
    subst h
    rfl
  · intro h
    subst h
    rfl
  · intro old h hlt t ht
    subst h
    have h2 : some old.fetchedAt = some t := ht
    injection h2 with h3
    exact h3 ▸ hlt

/-- C4 witness: merging at time 5 against a prior fetch at time 3 yields
`lastFetchedAt = 3`, which is strictly earlier than the new `fetchedAt`. -/
theorem mergeMetadata_spec_witness :
    (mergeMetadata 5 testDoc
        (some { numLinks := 0, numImages := 0, lastFetchedAt := none,
                fetchedAt := 3 })).lastFetchedAt = some 3 ∧
    ∀ t, (mergeMetadata 5 testDoc
        (some { numLinks := 0, numImages := 0, lastFetchedAt := none,
                fetchedAt := 3 })).lastFetchedAt = some t → t < 5 := by
  have h := mergeMetadata_spec 5 testDoc
    (some { numLinks := 0, numImages := 0, lastFetchedAt := none,
            fetchedAt := 3 })
  exact ⟨h.2.1 _ rfl, fun t => h.2.2.2 _ rfl (by decide) t⟩

/-! Claim C5. -/

/-- Dot-segment removal of a dot-free segment sequence followed by a final
`.`: all segments are kept and the trailing `.` leaves a trailing empty
segment. -/
theorem removeDotSegsCore_dot (mid : List String) :
    ∀ acc : List String, "." ∉ mid → ".." ∉ mid →
      removeDotSegsCore acc (mid ++ ["."]) = (acc.reverse ++ mid) ++ [""] := by
  induction mid with
  | nil =>
    intro acc _ _
    simp [removeDotSegsCore]
  | cons m rest ih =>
    intro acc h1 h2
    have hm1 : ¬m = "." := fun h => h1 (by simp [h])
    have hm2 : ¬m = ".." := fun h => h2 (by simp [h])
    have h1' : "." ∉ rest := fun h => h1 (List.mem_cons_of_mem _ h)
    have h2' : ".." ∉ rest := fun h => h2 (List.mem_cons_of_mem _ h)
    rw [List.cons_append]
    simp only [removeDotSegsCore]
    rw [if_neg hm1, if_neg hm2, ih (m :: acc) h1' h2']
    simp

/-- The merge step drops exactly the last segment of a base with at least
one separator. -/
theorem mergeSegs_cons_concat (a : String) (mid : List String)
    (lastSeg : String) (ref : List String) :
    mergeSegs ((a :: mid) ++ [lastSeg]) ref = (a :: mid) ++ ref := by
  cases mid with
  | nil => simp [mergeSegs]
  | cons x xs =>
    show mergeSegs (a :: x :: (xs ++ [lastSeg])) ref = _
    have : a :: x :: (xs ++ [lastSeg]) = (a :: x :: xs) ++ [lastSeg] := by simp
    simp only [mergeSegs, this, List.dropLast_concat]

/-- A path of the form `"" :: mid ++ [s]` is absolute. -/
theorem isAbsPath_cons (mid : List String) (s : String) :
    isAbsPath (("" :: mid) ++ [s]) = true := by
  cases mid <;> rfl

/-- Resolving the reference `.` against an absolute dot-free base path keeps
everything up to and including the last separator: the last segment is
removed and a trailing empty segment remains. -/
theorem resolvePath_dot (mid : List String) (lastSeg : String)
    (h1 : "." ∉ mid) (h2 : ".." ∉ mid) :
    resolvePath (("" :: mid) ++ [lastSeg]) ["."] = ("" :: mid) ++ [""] := by
  have hne : (["."] : List String) ≠ [""] := by decide
  have habs : ¬(isAbsPath ["."] = true) := by decide
  have hfull : mergeSegs (("" :: mid) ++ [lastSeg]) ["."]
      = ("" :: mid) ++ ["."] := mergeSegs_cons_concat "" mid lastSeg ["."]
  simp only [resolvePath]
  rw [if_neg hne, if_neg habs, hfull]
  have hne2 : ("" :: mid) ++ ["."] ≠ [""] := by simp
  rw [if_neg hne2, if_pos (isAbsPath_cons mid ".")]
  have hdrop : (("" :: mid) ++ ["."]).drop 1 = mid ++ ["."] := rfl
  rw [hdrop, removeDotSegsCore_dot mid [] h1 h2]
  simp

/-- C5: when the document's first `base` element declares a parseable
`href`, `determineBaseURL` returns that href resolved against the page URL;
otherwise (no base element, or an unparseable href) it returns the page
URL's directory — same scheme and host, and the page path with its last
segment removed. -/
theorem determineBaseURL_spec (p : String → Option GoURL) (pageURL : GoURL)
    (doc : Doc) :
    (∀ href ref, doc.baseHref = some href → p href = some ref →
      determineBaseURL p pageURL doc = resolveReference pageURL ref) ∧
    (∀ mid lastSeg,
      (doc.baseHref = none ∨
        ∃ href, doc.baseHref = some href ∧ p href = none) →
      pageURL.path = ("" :: mid) ++ [lastSeg] →
      "." ∉ mid → ".." ∉ mid →
      (determineBaseURL p pageURL doc).path = ("" :: mid) ++ [""] ∧
      (determineBaseURL p pageURL doc).scheme = pageURL.scheme ∧
      (determineBaseURL p pageURL doc).host = pageURL.host) := by
  constructor
  · intro href ref hdoc hp
    simp [determineBaseURL, hdoc, hp]
  · intro mid lastSeg hcase hpath hm1 hm2
    have hd : determineBaseURL p pageURL doc
        = resolveReference pageURL dotURL := by
      rcases hcase with hnone | ⟨href, hsome, hpnone⟩
      · simp [determineBaseURL, hnone]
      · simp [determineBaseURL, hsome, hpnone]
    have hcond : ¬(dotURL.scheme ≠ "" ∨ dotURL.host ≠ "") := by
      simp [dotURL]
    refine ⟨?_, ?_, ?_⟩
    · rw [hd]
      show (resolveReference pageURL dotURL).path = _
      rw [resolveReference, if_neg hcond]
      show resolvePath pageURL.path dotURL.path = _
      rw [hpath]
      exact resolvePath_dot mid lastSeg hm1 hm2
    · rw [hd, resolveReference, if_neg hcond]
    · rw [hd, resolveReference, if_neg hcond]

/-- C5 witness: for the page `http://a.com/sub/page.html` with no base
element, the computed base URL is `http://a.com/sub/`. -/
theorem determineBaseURL_spec_witness :
    (determineBaseURL testParse
        { scheme := "http", host := "a.com",
          path := ["", "sub", "page.html"], rawQuery := "", fragment := "" }
        testDoc).path = ["", "sub", ""] ∧
    (determineBaseURL testParse
        { scheme := "http", host := "a.com",
          path := ["", "sub", "page.html"], rawQuery := "", fragment := "" }
        testDoc).host = "a.com" := by
  have h := (determineBaseURL_spec testParse
    { scheme := "http", host := "a.com", path := ["", "sub", "page.html"],
      rawQuery := "", fragment := "" } testDoc).2 ["sub"] "page.html"
    (Or.inl rfl) rfl (by decide) (by decide)
  exact ⟨h.1, h.2.2⟩

/-! Claim C6. -/

/-- C6: a response with a status code outside 200-299 makes the fetch fail
with the bad-status error and leaves the effect log empty — no store is
created and no file (HTML document, metadata, or asset) is written for that
URL. -/
theorem scrape_badStatus_no_writes (env : ScrapeEnv) (strURL : String)
    (u : GoURL) (resp : HTTPResponse)
    (hp : env.parseURL strURL = some u)
    (hr : env.response = Except.ok resp)
    (hs : resp.statusCode < 200 ∨ resp.statusCode > 299) :
    (scrape env strURL).2.1 = some (FetchErr.badStatus resp.statusCode) ∧
    (scrape env strURL).2.2 = [] := by
  simp only [scrape, hp, hr]
  rw [if_pos hs]
  exact ⟨rfl, rfl⟩

/-- Fixture response: an HTTP 404 for the test page. -/
def resp404 : HTTPResponse :=
  { statusCode := 404, contentType := "text/html", requestURL := testPage,
    body := Except.error () }

/-- Fixture environment producing `resp404`. -/
def env404 : ScrapeEnv :=
  { parseURL := testParse
    response := Except.ok resp404
    loadMetadata := Except.ok none
    assetFetchOk := fun _ => true
    now := 0
    mirror := true }

/-- C6 witness: fetching through an environment answering HTTP 404 fails
with the bad-status error and writes nothing. -/
theorem scrape_badStatus_no_writes_witness :
    (scrape env404 "logo.png").2.1 = some (FetchErr.badStatus 404) ∧
    (scrape env404 "logo.png").2.2 = [] :=
  scrape_badStatus_no_writes env404 "logo.png"
    { scheme := "", host := "", path := ["logo.png"], rawQuery := "",
      fragment := "" }
    resp404 rfl rfl (by decide)

/-! Claim C7. -/

/-- C7: a response whose `Content-Type` does not contain the substring
`html` (case-insensitively) makes the fetch fail with the content-type
mismatch error, and the HTML parser is never invoked on the body. -/
theorem scrape_contentType_no_parse (env : ScrapeEnv) (strURL : String)
    (u : GoURL) (resp : HTTPResponse)
    (hp : env.parseURL strURL = some u)
    (hr : env.response = Except.ok resp)
    (hs : 200 ≤ resp.statusCode ∧ resp.statusCode ≤ 299)
    (hct : contentTypeIsHTML resp.contentType = false) :
    (scrape env strURL).2.1
      = some (FetchErr.unsupportedContentType resp.contentType) ∧
    FetchEffect.invokeParser ∉ (scrape env strURL).2.2 := by
  have hcond : ¬(resp.statusCode < 200 ∨ resp.statusCode > 299) := by omega
  simp only [scrape, hp, hr]
  rw [if_neg hcond]
  simp [processResp, hct]

/-- Fixture response: HTTP 200 with a JSON content type. -/
def respJSON : HTTPResponse :=
  { statusCode := 200, contentType := "application/json",
    requestURL := testPage, body := Except.error () }

/-- Fixture environment producing `respJSON`. -/
def envJSON : ScrapeEnv :=
  { parseURL := testParse
    response := Except.ok respJSON
    loadMetadata := Except.ok none
    assetFetchOk := fun _ => true
    now := 0
    mirror := true }

/-- C7 witness: a 200 response with `Content-Type: application/json` fails
with the content-type mismatch error and the parser is never invoked. -/
theorem scrape_contentType_no_parse_witness :
    (scrape envJSON "logo.png").2.1
      = some (FetchErr.unsupportedContentType "application/json") ∧
    FetchEffect.invokeParser ∉ (scrape envJSON "logo.png").2.2 :=
  scrape_contentType_no_parse envJSON "logo.png"
    { scheme := "", host := "", path := ["logo.png"], rawQuery := "",
      fragment := "" }
    respJSON rfl rfl (by decide) (by decide)

/-! Claim C8. -/

/-- C8: with a positive concurrency limit, a call whose context is cancelled
while all slots are taken returns the cancellation outcome and issues no
request; and a call that acquires a slot issues the request and releases the
slot unconditionally, whether the request succeeds or fails. -/
theorem throttleDo_gate {ε ρ : Type} (c : ThrottleClient) (inUse : Nat)
    (pickDone : Bool) (reqResult : Except ε ρ)
    (hpar : 0 < c.parallelism) :
    (c.parallelism ≤ inUse →
      throttleDo c inUse true pickDone reqResult
        = (DoOutcome.ctxError, [])) ∧
    (∀ ctxCancelled : Bool, inUse < c.parallelism →
      (ctxCancelled && pickDone) = false →
      throttleDo c inUse ctxCancelled pickDone reqResult
        = (DoOutcome.completed reqResult,
           [GateEvent.acquire, GateEvent.issue, GateEvent.release])) := by
  constructor
  · intro hfull
    have hfree : decide (inUse < c.parallelism) = false := by
      simp [Nat.not_lt.2 hfull]
    simp [throttleDo, hpar, hfree]
  · intro ctxCancelled hfree hcp
    have hfree' : decide (inUse < c.parallelism) = true := by simp [hfree]
    simp only [throttleDo, if_pos hpar, hfree']
    have : (ctxCancelled && (!true || pickDone)) = false := by
      simpa using hcp
    rw [this]
    simp

/-- C8 witness: with limit 1 and the single slot taken, a cancelled waiter
gets the cancellation outcome with no events; with a free slot, a request
that fails still produces the acquire-issue-release event sequence. -/
theorem throttleDo_gate_witness :
    throttleDo { parallelism := 1 } 1 true false
        (Except.error () : Except Unit Unit)
      = (DoOutcome.ctxError, []) ∧
    throttleDo { parallelism := 1 } 0 false false
        (Except.error () : Except Unit Unit)
      = (DoOutcome.completed (Except.error ()),
         [GateEvent.acquire, GateEvent.issue, GateEvent.release]) := by
  constructor
  · exact (throttleDo_gate { parallelism := 1 } 1 false
      (Except.error ()) (by decide)).1 (by decide)
  · exact (throttleDo_gate { parallelism := 1 } 0 false
      (Except.error ()) (by decide)).2 false (by decide) (by decide)

/-! Claim C10. -/

/-- C10: with concurrency limit 0 (unlimited) the gate never consults the
context — for any cancellation state, including an already-cancelled
context, the request is issued and the call returns the request's own
result, never a cancellation error. -/
theorem throttleDo_noLimit {ε ρ : Type} (c : ThrottleClient) (inUse : Nat)
    (ctxCancelled pickDone : Bool) (reqResult : Except ε ρ)
    (h : c.parallelism = 0) :
    throttleDo c inUse ctxCancelled pickDone reqResult
      = (DoOutcome.completed reqResult, [GateEvent.issue]) := by
  simp [throttleDo, h]

/-- C10 witness: an already-cancelled context with limit 0 still issues the
request and returns its result. -/
theorem throttleDo_noLimit_witness :
    throttleDo { parallelism := 0 } 0 true true
        (Except.ok () : Except Unit Unit)
      = (DoOutcome.completed (Except.ok ()), [GateEvent.issue]) :=
  throttleDo_noLimit { parallelism := 0 } 0 true true (Except.ok ()) rfl

/-! Claim C9. -/

/-- A nonempty string has positive length. -/
theorem strLength_pos (s : String) (h : s ≠ "") : 0 < s.length := by
  cases s with
  | mk d =>
    cases d with
    | nil => exact absurd rfl h
    | cons c cs => simp [String.length]

/-- C9: the document name is `host ++ path` when the query is empty and
`host ++ path ++ "+" ++ query` when it is nonempty; two URLs agreeing on
host and path but differing in query get distinct names; and the name
depends only on host, path and query — the fragment (and scheme) never
influence it. -/
theorem constructURLBaseName_spec (u v : GoURL) :
    (u.rawQuery = "" →
      constructURLBaseName u = u.host ++ pathStr u.path) ∧
    (u.rawQuery ≠ "" →
      constructURLBaseName u
        = u.host ++ pathStr u.path ++ "+" ++ u.rawQuery) ∧
    (u.host = v.host → u.path = v.path → u.rawQuery ≠ v.rawQuery →
      constructURLBaseName u ≠ constructURLBaseName v) ∧
    (u.host = v.host → u.path = v.path → u.rawQuery = v.rawQuery →
      constructURLBaseName u = constructURLBaseName v) := by
  have hempty : ∀ w : GoURL, w.rawQuery = "" →
      constructURLBaseName w = w.host ++ pathStr w.path := by
    intro w hw
    simp [constructURLBaseName, hw]
  have hfull : ∀ w : GoURL, w.rawQuery ≠ "" →
      constructURLBaseName w
        = w.host ++ pathStr w.path ++ "+" ++ w.rawQuery := by
    intro w hw
    simp [constructURLBaseName, if_pos (strLength_pos _ hw)]
  refine ⟨hempty u, hfull u, ?_, ?_⟩
  · intro hh hp hq heq
    by_cases h1 : u.rawQuery = ""
    · have h2 : v.rawQuery ≠ "" := fun h => hq (h1.trans h.symm)
      rw [hempty u h1, hfull v h2, hh, hp] at heq
      have hlen := congrArg String.length heq
      simp only [String.length_append] at hlen
      have := strLength_pos v.rawQuery h2
      omega
    · by_cases h2 : v.rawQuery = ""
      · rw [hfull u h1, hempty v h2, hh, hp] at heq
        have hlen := congrArg String.length heq
        simp only [String.length_append] at hlen
        have := strLength_pos u.rawQuery h1
        omega
      · rw [hfull u h1, hfull v h2, hh, hp] at heq
        have hdata := congrArg String.data heq
        simp only [String.data_append] at hdata
        exact hq (String.ext (List.append_cancel_left hdata))
  · intro h1 h2 h3
    simp [constructURLBaseName, h1, h2, h3]

/-- C9 witness: two URLs agreeing on host and path but with queries `x` and
`y` (and different fragments) receive distinct document names. -/
theorem constructURLBaseName_spec_witness :
    constructURLBaseName
        { scheme := "http", host := "a.com", path := ["", "p"],
          rawQuery := "x", fragment := "f1" } ≠
      constructURLBaseName
        { scheme := "http", host := "a.com", path := ["", "p"],
          rawQuery := "y", fragment := "f2" } :=
  (constructURLBaseName_spec
    { scheme := "http", host := "a.com", path := ["", "p"],
      rawQuery := "x", fragment := "f1" }
    { scheme := "http", host := "a.com", path := ["", "p"],
      rawQuery := "y", fragment := "f2" }).2.2.1 rfl rfl (by decide)
